import Mathlib

/-!
Verification of the plenario sensor-network observation query engine
(`plenario/sensor_network/api/sensor_networks.py`) against its
natural-language specification.

The embedding below translates the planner (`node_metadata_query`,
`observation_query`, `get_observation_queries`), the merger
(`run_observation_queries`) and the chunked datadump runner
(`get_observation_datadump`, `store_chunk`) into executable Lean
definitions.  Timestamps are modelled as naturals (the code's
isoformat/parse round-trip preserves the ordering of timestamps), SQL
query execution as list filtering with SQL OFFSET-then-LIMIT semantics,
and the external PostGIS containment test, `fast_count` estimator and
chunk-id generator as oracle parameters.
-/

namespace Plenario

/-- ASCII lower-casing of one character, as Python's `str.lower` and SQL
`lower()` act on the ASCII names used by this code. -/
def lowerChar (c : Char) : Char :=
  if c.isUpper then Char.ofNat (c.toNat + 32) else c

/-- Python `s.lower()` / SQL `lower(s)`. -/
def pyLower (s : String) : String := String.mk (s.data.map lowerChar)

/-- Python `s.split(sep)[0]`: the prefix of `s` strictly before the first
occurrence of `sep` (all of `s` when `sep` does not occur). -/
def beforeFirst (sep : Char) (s : String) : String :=
  String.mk (s.data.takeWhile (fun c => c ≠ sep))

/-- A row of `sensor__node_metadata` (`NodeMeta`,
`src/plenario/models/SensorNetwork.py`).  `location` is an opaque handle
to the node's PostGIS point geometry. -/
structure NodeMeta where
  id : String
  sensor_network : String
  location : Nat
  deriving DecidableEq

/-- A row of `sensor__sensor_metadata` (`SensorMeta`): the sensor name and
its `observed_properties` JSON mapping raw property names to
`<feature>.<property>` dotted keys. -/
structure SensorMeta where
  name : String
  observed_properties : List (String × String)
  deriving DecidableEq

/-- One observation row of a physical feature table: the four key columns
plus the feature's property columns (`props`, column name to value). -/
structure ObsRow where
  node_id : String
  datetime : Nat
  sensor : String
  meta_id : Int
  props : List (String × String)
  deriving DecidableEq

/-- A physical observation table in the warehouse: its name and rows. -/
structure TableData where
  name : String
  rows : List ObsRow
  deriving DecidableEq

/-- The metadata catalog the planner consults: node and sensor metadata
rows (the `session.query(NodeMeta)` / `session.query(Sensor)` tables). -/
structure Catalog where
  nodes : List NodeMeta
  sensors : List SensorMeta
  deriving DecidableEq

/-- The validated argument bag (`ValidatorResult.data`) consumed by the
observation-query path.  `nodes`, `node_id` and `geom` are `none` when the
caller did not supply them; a datetime is a timestamp; `offset` defaults
to 0 and `sensors` / `features_of_interest` are always present (lowered by
the endpoint before validation). -/
structure QueryData where
  network_name : String
  node_id : Option String
  nodes : Option (List String)
  sensors : List String
  features_of_interest : List String
  start_datetime : Nat
  end_datetime : Nat
  limit : Nat
  offset : Nat
  geom : Option String
  deriving DecidableEq

/-- Python truthiness of an optional string (`None` and `""` are falsy). -/
def truthyOptStr : Option String → Bool
  | none => false
  | some s => !s.isEmpty

/-- Python truthiness of an optional list (`None` and `[]` are falsy). -/
def truthyList : Option (List String) → Bool
  | none => false
  | some l => !l.isEmpty

/-- `node_metadata_query` (sensor_networks.py lines 264-282): filter the
node catalog by network name (case-insensitively), then by exact node id,
node-id list membership and geometry containment, each filter applied only
when its argument is truthy.  `stWithin loc` is the oracle for the PostGIS
`ST_Within(location, ST_GeomFromGeoJSON(geojson))` test of the request's
geometry filter. -/
def node_metadata_query (args : QueryData) (catalog : List NodeMeta)
    (stWithin : Nat → Bool) : List NodeMeta :=
  catalog.filter (fun n =>
    (pyLower n.sensor_network == pyLower args.network_name)
    && (if truthyOptStr args.node_id
        then pyLower n.id == pyLower (args.node_id.getD "") else true)
    && (if truthyList args.nodes
        then (args.nodes.getD []).contains (pyLower n.id) else true)
    && (if truthyOptStr args.geom then stWithin n.location else true))

/-- One per-table bounded range query as built by `observation_query`
(lines 285-301).  A `none` filter or offset records that the source
skipped the corresponding `.filter(...)` / `.offset(...)` call because its
argument was falsy. -/
structure ObsQuery where
  table : TableData
  start_dt : Nat
  end_dt : Nat
  nodeFilter : Option (List String)
  sensorFilter : Option (List String)
  limit : Nat
  offset : Option Nat
  deriving DecidableEq

/-- `observation_query` (lines 285-301): the datetime range filters are
always applied; node and sensor membership filters only when truthy; the
limit is `limit / num_tables` (Python 2 integer floor division) and the
offset `offset / num_tables`, the latter set only when `offset` is
truthy (nonzero). -/
def observation_query (args : QueryData) (num_tables : Nat)
    (table : TableData) : ObsQuery :=
  { table := table
    start_dt := args.start_datetime
    end_dt := args.end_datetime
    nodeFilter := if truthyList args.nodes then some (args.nodes.getD []) else none
    sensorFilter := if args.sensors.isEmpty then none else some args.sensors
    limit := args.limit / num_tables
    offset := if args.offset ≠ 0 then some (args.offset / num_tables) else none }

/-- The WHERE clause of a built query applied to one row. -/
def matchesQuery (q : ObsQuery) (r : ObsRow) : Bool :=
  decide (q.start_dt ≤ r.datetime) && decide (r.datetime < q.end_dt)
  && (match q.nodeFilter with
      | none => true
      | some l => l.contains (pyLower r.node_id))
  && (match q.sensorFilter with
      | none => true
      | some l => l.contains (pyLower r.sensor))

/-- Executing a built query (`.all()`): the filtered rows with SQL
OFFSET-then-LIMIT semantics (`.limit`/`.offset` are setters, so the order
of the two calls in the source is immaterial). -/
def runQuery (q : ObsQuery) : List ObsRow :=
  ((q.table.rows.filter (matchesQuery q)).drop (q.offset.getD 0)).take q.limit

/-- A uniform formatted observation record (`format_observation`,
lines 353-366): `results` copies every non-key column of the row and
`feature_of_interest` is the table name. -/
structure ObsRecord where
  node_id : String
  meta_id : Int
  datetime : Nat
  sensor : String
  feature_of_interest : String
  results : List (String × String)
  deriving DecidableEq

/-- `format_observation` (lines 353-366).  The `datetime` value is carried
through: `obs.datetime.isoformat().split('+')[0]` followed by the final
sort's `parse` is order- and value-preserving on timestamps. -/
def format_observation (obs : ObsRow) (table : TableData) : ObsRecord :=
  { node_id := obs.node_id
    meta_id := obs.meta_id
    datetime := obs.datetime
    sensor := obs.sensor
    feature_of_interest := table.name
    results := obs.props }

/-- An HTTP response as far as these claims observe it.

Modelled from the spec: `bad_request` is imported from
`plenario.sensor_network.api.sensor_response`, which is not among the
sources; per the spec it yields an HTTP 400 response carrying the given
message (the in-source `plenario/api/response.py` twin does the same). -/
structure HttpResponse where
  status : Nat
  message : String
  deriving DecidableEq

/-- Modelled from the spec: HTTP 400 with the given message. -/
def bad_request (msg : String) : HttpResponse :=
  { status := 400, message := msg }

/-- Feature-table lookup (`Table(table_name, meta, autoload=True, ...)`):
the warehouse either has a table of that name or raises
`NoSuchTableError`. -/
def warehouseLookup (warehouse : List TableData) (name : String) :
    Option TableData :=
  warehouse.find? (fun t => t.name == name)

/-- The candidate feature resolution of `get_observation_queries`
(lines 466-479): restrict the sensor catalog to the requested sensor
names, collect the feature prefixes (before the first dot, lowered) of
their observed properties, and intersect the requested features with
them.  The intersection is a Python set; we represent it by the requested
features in request order, deduplicated. -/
def resolveFeatures (args : QueryData) (cat : Catalog) : List String :=
  let sensors := cat.sensors.filter (fun s => args.sensors.contains (pyLower s.name))
  let all_features := sensors.flatMap
    (fun s => s.observed_properties.map (fun p => pyLower (beforeFirst '.' p.2)))
  (args.features_of_interest.eraseDups).filter (fun f => all_features.contains f)

/-- The table-loading loop of `get_observation_queries` (lines 481-488):
load each candidate feature's table, aborting with the (lowered) name of
the first feature whose table is absent from the warehouse. -/
def lookupTables (warehouse : List TableData) : List String → Except String (List TableData)
  | [] => .ok []
  | f :: fs =>
    match warehouseLookup warehouse (pyLower f) with
    | none => .error (pyLower f)
    | some t => (lookupTables warehouse fs).map (fun ts => t :: ts)

/-- The resolved target node ids (`nodes_to_query`, line 463): the ids
of the nodes the metadata query returns, lowered. -/
def resolvedNodes (args : QueryData) (cat : Catalog) (stWithin : Nat → Bool) :
    List String :=
  (node_metadata_query args cat.nodes stWithin).map (fun n => pyLower n.id)

/-- `get_observation_queries` (lines 455-490): resolve the target node
ids (overwriting `args.data['nodes']`), resolve the candidate features,
load their tables — failing fast with `bad_request("Table <name> not
found")` on the first absent table — and build one `observation_query`
per table with `num_tables = len(tables)`.  (Lines 458-461 only reformat
the unused `start_dt`/`end_dt` keys and are omitted.) -/
def get_observation_queries (args : QueryData) (cat : Catalog)
    (stWithin : Nat → Bool) (warehouse : List TableData) :
    Except HttpResponse (List (ObsQuery × TableData)) :=
  let args' := { args with nodes := some (resolvedNodes args cat stWithin) }
  let features := resolveFeatures args' cat
  match lookupTables warehouse features with
  | .error name => .error (bad_request ("Table " ++ name ++ " not found"))
  | .ok tables =>
    .ok (tables.map (fun t => (observation_query args' tables.length t, t)))

/-- Ordering of formatted records by their (parsed) datetime, the key of
the final sort. -/
def dtLe (a b : ObsRecord) : Prop := a.datetime ≤ b.datetime

instance : DecidableRel dtLe := fun a b => Nat.decLe a.datetime b.datetime

instance : IsTotal ObsRecord dtLe :=
  ⟨fun a b => Nat.le_total a.datetime b.datetime⟩

instance : IsTrans ObsRecord dtLe :=
  ⟨fun _ _ _ hab hbc => Nat.le_trans hab hbc⟩

/-- The final global sort of `run_observation_queries` (line 544):
`results.sort(key=lambda x: parse(x["datetime"]))`.  Python's `list.sort`
is a stable sort on the key; insertion sort is a stable sort with the
identical input/output behaviour. -/
def sortResults (results : List ObsRecord) : List ObsRecord :=
  List.insertionSort dtLe results

/-- The rows the fan-out threads collect (`fetch_query_results`,
lines 495-508): each thread appends the formatted rows of its own query
to the shared list.  `collectResults` is the canonical sequential order;
any actual thread interleaving is a permutation of it. -/
def collectResults (queries : List (ObsQuery × TableData)) : List ObsRecord :=
  queries.flatMap (fun qt => (runQuery qt.1).map (fun r => format_observation r qt.2))

/-- Outcome of an observation-query request as the client sees it:
either the 200 response with the merged records, or death by an
unhandled exception (surfaced as HTTP 500) raised while the code
mishandled the planner's bad-request response object. -/
inductive RequestResult
  | ok200 (records : List ObsRecord)
  | crashed500 (over : HttpResponse)
  deriving DecidableEq

/-- `get_observations` (lines 176-206) after validation, composed with the
data path of `run_observation_queries` (lines 493-550): the planner's
result is handed to `run_observation_queries` unchecked.  On a
successful plan the fan-out results (canonical interleaving) are
collected and sorted.  When the planner returned a bad-request response
instead, that response object is what reaches
`run_observation_queries`, whose first statement
`for query, table in queries` iterates and unpacks it and raises — the
request dies with an unhandled exception (HTTP 500) before any query
runs, and the constructed 400 is never returned to the client.  The
`.crashed500` outcome records the orphaned response the crash happened
over. -/
def get_observations (args : QueryData) (cat : Catalog)
    (stWithin : Nat → Bool) (warehouse : List TableData) : RequestResult :=
  match get_observation_queries args cat stWithin warehouse with
  | .error resp => .crashed500 resp
  | .ok plan => .ok200 (sortResults (collectResults plan))

/-- A Python value held in the validated argument dict, as far as the
echoed-metadata logic observes it. -/
inductive PyVal
  | null
  | str (s : String)
  | strs (l : List String)
  | intval (n : Nat)
  deriving DecidableEq

/-- The validated argument dict `args.data` as a key/value list (keys are
unique; the typed `QueryData` view above is its projection). -/
abbrev ArgDict := List (String × PyVal)

/-- Python `d.pop(k)` on a dict: drop the entry for `k`.  (At the call
sites below the popped keys are always present: `nodes` is set by
`get_observation_queries` and the rest by the validator.) -/
def eraseKey (d : ArgDict) (k : String) : ArgDict :=
  d.filter (fun kv => kv.1 ≠ k)

/-- The timezone-suffix strip applied to echoed datetimes
(`value.split("+")[0]`, lines 528-531). -/
def stripPlusVal : PyVal → PyVal
  | .str s => .str (beforeFirst '+' s)
  | v => v

/-- The query-metadata shaping of `run_observation_queries`
(lines 510-536), applied to `args.data` given the set of raw request-arg
keys: pop `nodes`, `features_of_interest` and `sensors` unless the caller
supplied them, pop `geom`, strip `+...` suffixes from the echoed
datetimes the caller supplied, and finally drop every null-valued key. -/
def displayData (request_keys : List String) (data : ArgDict) : ArgDict :=
  let d := if request_keys.contains "nodes" then data else eraseKey data "nodes"
  let d := if request_keys.contains "features_of_interest" then d
           else eraseKey d "features_of_interest"
  let d := if request_keys.contains "sensors" then d else eraseKey d "sensors"
  let d := eraseKey d "geom"
  let d := if request_keys.contains "start_datetime"
           then d.map (fun kv =>
             if kv.1 = "start_datetime" then (kv.1, stripPlusVal kv.2) else kv)
           else d
  let d := if request_keys.contains "end_datetime"
           then d.map (fun kv =>
             if kv.1 = "end_datetime" then (kv.1, stripPlusVal kv.2) else kv)
           else d
  d.filter (fun kv => kv.2 ≠ PyVal.null)

/-- The combined `meta.query` metadata echoed by the response
(lines 538-541): `display_args = {}; update(request.args);
update(args.data)` — the shaped data overlays the raw request
arguments.  `display_args ra d k` is the value echoed for key `k`. -/
def display_args (request_args : List (String × String)) (data : ArgDict)
    (k : String) : Option PyVal :=
  match (displayData (request_args.map Prod.fst) data).lookup k with
  | some v => some v
  | none => (request_args.lookup k).map PyVal.str

/-- The validator's field allowlist for the observation-query endpoint
(`get_observations`, lines 178-180).  Modelled from the spec: the
validator (outside these sources) "accepts raw query-string key/value
pairs against a named field allowlist", so every request-arg key reaching
`run_observation_queries` is one of these. -/
def observationFields : List String :=
  ["network_name", "nodes", "start_datetime", "end_datetime",
   "location_geom__within", "features_of_interest", "sensors",
   "limit", "offset"]

/-- A persisted datadump payload: either a serialized page of observation
records, or the final metadata document of lines 586-591 (job start time,
end time, worker id list, queried feature names). -/
inductive DumpData
  | page (records : List ObsRecord)
  | metadoc (startTime endTime : String) (workers : List String)
      (features : List String)
  deriving DecidableEq

/-- A row of the `DataDump` model as constructed in this module (the model
class itself is declared outside these sources; its field set is fixed by
the two construction sites, lines 593 and 607-613). -/
structure DataDump where
  id : String
  request : String
  part : Nat
  total : Nat
  data : DumpData
  deriving DecidableEq

/-- The jobs-framework status record for one ticket: its immutable meta
(only `startTime` is read here) and the `progress` entry, absent until
the first `store_chunk` writes it. -/
structure JobStatus where
  meta_startTime : String
  progress : Option (Nat × Nat)
  deriving DecidableEq

/-- The persistent state a datadump job mutates: committed `DataDump`
rows (append-only), the job-status record, and the flag store written by
`set_flag`. -/
structure JobState where
  dumps : List DataDump
  status : JobStatus
  flags : List (String × Bool × Nat)
  deriving DecidableEq

/-- One atomic store operation performed by the datadump runner. -/
inductive DDOp
  | commitDump (d : DataDump)
  | setStatusProgress (done total : Nat)
  | putFlag (key : String) (v : Bool) (ttl : Nat)
  deriving DecidableEq

/-- Effect of one store operation.  `set_status` is a read-modify-write
that replaces only `progress`, keeping the status meta; `set_flag` is
logged append-only. -/
def applyOp (st : JobState) : DDOp → JobState
  | .commitDump d => { st with dumps := st.dumps ++ [d] }
  | .setStatusProgress done total =>
      { st with status := { st.status with progress := some (done, total) } }
  | .putFlag k v ttl => { st with flags := st.flags ++ [(k, v, ttl)] }

/-- The store operations `store_chunk` (lines 605-628) performs when its
commit succeeds: commit the chunk row, then update the status progress,
then extend the cleanup-suppression flag for 10800 seconds. -/
def store_chunk_ops (chunkId : String) (chunk : List ObsRecord)
    (chunk_count chunk_number : Nat) (request_id : String) : List DDOp :=
  [ .commitDump { id := chunkId, request := request_id, part := chunk_number,
                  total := chunk_count, data := .page chunk },
    .setStatusProgress chunk_number chunk_count,
    .putFlag (request_id ++ "_suppresscleanup") true 10800 ]

/-- `store_chunk` with commit outcome `ok`: on success the three store
operations run in order; on a commit failure the chunk write is rolled
back (state unchanged) and the exception is re-raised (`.error`), so
neither the status update nor the flag write happens. -/
def store_chunk (ok : Bool) (chunkId : String) (chunk : List ObsRecord)
    (chunk_count chunk_number : Nat) (request_id : String) (st : JobState) :
    Except JobState JobState :=
  if ok then
    .ok ((store_chunk_ops chunkId chunk chunk_count chunk_number request_id).foldl applyOp st)
  else .error st

/-- The buffered chunking loop of `get_observation_datadump`
(lines 570-581), emitting its store operations: append each formatted row
to the buffer and flush the buffer as chunk `number` whenever its length
exceeds `chunk_size` (1000).  Returns the emitted operations, the final
partial buffer and the next chunk number.  `chunkId n` models the
`os.urandom(16).encode('hex')` row id of the `n`-th chunk. -/
def chunkLoop (chunkId : Nat → String) (request_id : String)
    (chunk_count : Nat) :
    List ObsRecord → List ObsRecord → Nat → List DDOp × List ObsRecord × Nat
  | [], buffer, number => ([], buffer, number)
  | r :: rest, buffer, number =>
    let buffer' := buffer ++ [r]
    if 1000 < buffer'.length then
      let out := chunkLoop chunkId request_id chunk_count rest [] (number + 1)
      (store_chunk_ops (chunkId number) buffer' chunk_count number request_id ++ out.1,
       out.2.1, out.2.2)
    else
      chunkLoop chunkId request_id chunk_count rest buffer' number

/-- Modelled from the spec: `windowed_query(query, table.c.datetime,
chunk_size)` comes from `plenario.database`, which is outside these
sources; per the spec it pages through the query's result set ordered by
the datetime column, yielding exactly the query's rows. -/
def rowLe (a b : ObsRow) : Prop := a.datetime ≤ b.datetime

instance : DecidableRel rowLe := fun a b => Nat.decLe a.datetime b.datetime

/-- Modelled from the spec: the rows `windowed_query` yields — the built
query's rows, in datetime order. -/
def windowed_query (q : ObsQuery) : List ObsRow :=
  List.insertionSort rowLe (runQuery q)

/-- The oracles and request-scoped constants of one datadump run:
the chunk row-id source, the `fast_count` row-count estimator (from
`plenario.database`, outside these sources), `str(datetime.now())`, the
worker id and the URL root. -/
structure DumpEnv where
  chunkId : Nat → String
  fastCount : ObsQuery → Nat
  now : String
  workerid : String
  urlroot : String

/-- The row-count the datadump bases its chunk count on (lines 558-564):
the summed per-table `fast_count` estimates, replaced by `limit` when a
truthy (nonzero) limit was supplied. -/
def dump_row_count (env : DumpEnv) (queries : List (ObsQuery × TableData))
    (limit : Nat) : Nat :=
  if limit ≠ 0 then limit
  else (queries.map (fun qt => env.fastCount qt.1)).sum

/-- `math.ceil(row_count / 1000.0)` (lines 566-567) as the natural-number
ceiling of `row_count / 1000`. -/
def chunk_count_of (row_count : Nat) : Nat := (row_count + 999) / 1000

/-- The flattened stream of formatted records the datadump pages through
(the nested loop of lines 572-576). -/
def datadump_rows (queries : List (ObsQuery × TableData)) : List ObsRecord :=
  queries.flatMap (fun qt => (windowed_query qt.1).map (fun r => format_observation r qt.2))

/-- The queried feature names accumulated at line 574 (a Python set of the
lowered table names; represented deduplicated in first-seen order). -/
def dump_features (queries : List (ObsQuery × TableData)) : List String :=
  (queries.map (fun qt => pyLower qt.2.name)).eraseDups

/-- Every store operation a datadump run performs after planning
(lines 558-601): the chunk-loop flushes, the final partial-buffer flush
(only when the buffer is nonempty), and the metadata-document commit with
`part = 0` built from the job's status `startTime`, the current time, the
worker id and the queried features. -/
def get_observation_datadump_ops (env : DumpEnv) (request_id : String)
    (startTime : String) (queries : List (ObsQuery × TableData))
    (limit : Nat) : List DDOp :=
  let chunk_count := chunk_count_of (dump_row_count env queries limit)
  let out := chunkLoop env.chunkId request_id chunk_count (datadump_rows queries) [] 1
  let tail := if out.2.1.length ≠ 0
              then store_chunk_ops (env.chunkId out.2.2) out.2.1 chunk_count out.2.2 request_id
              else []
  out.1 ++ tail ++
    [.commitDump { id := request_id, request := request_id, part := 0,
                   total := chunk_count,
                   data := .metadoc startTime env.now [env.workerid]
                             (dump_features queries) }]

/-- How a datadump run ends when it does not return a URL: an unhandled
exception raised while iterating the planner's bad-request response
object (which carries that orphaned response), or a re-raised commit
failure. -/
inductive DumpErr
  | unhandledCrash (over : HttpResponse)
  | commitFailed
  deriving DecidableEq

/-- Run store operations against the job state; the `n`-th session commit
succeeds iff `ok n`.  A failed commit is rolled back (no state change)
and its re-raised exception aborts the run, leaving the state as of the
last completed operation. -/
def runOps (ok : Nat → Bool) : List DDOp → Nat → JobState → Except JobState JobState
  | [], _, st => .ok st
  | .commitDump d :: rest, n, st =>
    if ok n then runOps ok rest (n + 1) (applyOp st (.commitDump d))
    else .error st
  | op :: rest, n, st => runOps ok rest n (applyOp st op)

/-- `get_observation_datadump` (lines 553-602) end to end: plan via
`get_observation_queries`, then execute the store operations (commit
outcomes given by `ok`) and return the datadump URL.  When the planner
returned a bad-request response, the unchecked
`for query, table in observation_queries` of the fast_count loop
(lines 560-561) iterates and unpacks that response object and raises, so
the run aborts with an unhandled exception before computing any count or
touching the store — the 400 response is never delivered anywhere.
Errors carry the job state at the abort point. -/
def get_observation_datadump (env : DumpEnv) (ok : Nat → Bool)
    (args : QueryData) (request_id : String) (cat : Catalog)
    (stWithin : Nat → Bool) (warehouse : List TableData) (st : JobState) :
    Except (DumpErr × JobState) (String × JobState) :=
  match get_observation_queries args cat stWithin warehouse with
  | .error resp => .error (.unhandledCrash resp, st)
  | .ok queries =>
    let ops := get_observation_datadump_ops env request_id
                 st.status.meta_startTime queries args.limit
    match runOps ok ops 0 st with
    | .error st' => .error (.commitFailed, st')
    | .ok st' => .ok (env.urlroot ++ "v1/api/datadump/" ++ request_id, st')

/-- Whether a persisted payload is a data page (as opposed to the final
metadata document). -/
def isPage : DumpData → Bool
  | .page _ => true
  | .metadoc _ _ _ _ => false

/-- The part numbers of the persisted data chunks (page payloads) of a
job state. -/
def pageParts (st : JobState) : List Nat :=
  (st.dumps.filter (fun d => isPage d.data)).map (fun d => d.part)

/-- The `progress.done` counter of a job state (0 before any progress
record exists). -/
def doneOf (st : JobState) : Nat :=
  match st.status.progress with
  | some p => p.1
  | none => 0

/-! Concrete fixtures used by the witness and counterexample theorems:
a network `net` with two nodes, one sensor reporting the `temperature`
feature, and a one-row `temperature` table. -/

/-- Fixture node `a` of network `net`. -/
def nodeA : NodeMeta := { id := "a", sensor_network := "net", location := 0 }

/-- Fixture node `b` of network `net`. -/
def nodeB : NodeMeta := { id := "b", sensor_network := "net", location := 1 }

/-- Fixture sensor `s1` reporting property `temp` of feature
`temperature`. -/
def sensorS1 : SensorMeta :=
  { name := "s1", observed_properties := [("temp", "temperature.temp")] }

/-- Fixture catalog. -/
def cCat : Catalog := { nodes := [nodeA, nodeB], sensors := [sensorS1] }

/-- Fixture observation row on node `a` at time 5. -/
def rowA : ObsRow :=
  { node_id := "a", datetime := 5, sensor := "s1", meta_id := 1,
    props := [("temp", "20.1")] }

/-- Fixture `temperature` table. -/
def tempTable : TableData := { name := "temperature", rows := [rowA] }

/-- Fixture warehouse holding the `temperature` table. -/
def cWh : List TableData := [tempTable]

/-- Fixture validated arguments: window `[0, 10)`, limit 5000, no node or
geometry filter. -/
def cArgs : QueryData :=
  { network_name := "net", node_id := none, nodes := none, sensors := ["s1"],
    features_of_interest := ["temperature"], start_datetime := 0,
    end_datetime := 10, limit := 5000, offset := 0, geom := none }

/-- Fixture datadump environment. -/
def cEnv : DumpEnv :=
  { chunkId := fun _ => "cid", fastCount := fun _ => 0, now := "now",
    workerid := "w", urlroot := "u/" }

/-- Fixture fresh job state. -/
def cSt0 : JobState :=
  { dumps := [], status := { meta_startTime := "t0", progress := none },
    flags := [] }

/-! General lemmas about the embedded operations. -/

/-- Any row a built query returns satisfies its WHERE clause. -/
lemma matchesQuery_of_mem_runQuery {q : ObsQuery} {r : ObsRow}
    (h : r ∈ runQuery q) : matchesQuery q r = true := by
  have h1 : r ∈ (q.table.rows.filter (matchesQuery q)).drop (q.offset.getD 0) :=
    List.mem_of_mem_take h
  have h2 : r ∈ q.table.rows.filter (matchesQuery q) := List.mem_of_mem_drop h1
  exact (List.mem_filter.mp h2).2

/-- Any row a built query returns lies in the query's half-open datetime
window. -/
lemma runQuery_datetime_bounds {q : ObsQuery} {r : ObsRow}
    (h : r ∈ runQuery q) : q.start_dt ≤ r.datetime ∧ r.datetime < q.end_dt := by
  have hm := matchesQuery_of_mem_runQuery h
  simp only [matchesQuery, Bool.and_eq_true, decide_eq_true_eq] at hm
  exact ⟨hm.1.1.1, hm.1.1.2⟩

/-- Shape of a successful plan: every pair of the plan is the query built
over its own table with `num_tables = plan.length`, from the arguments
whose `nodes` entry was overwritten with the resolved node ids. -/
lemma plan_shape {args : QueryData} {cat : Catalog} {stw : Nat → Bool}
    {wh : List TableData} {plan : List (ObsQuery × TableData)}
    (h : get_observation_queries args cat stw wh = .ok plan) :
    ∀ qt ∈ plan,
      qt.1 = observation_query
        { args with nodes := some (resolvedNodes args cat stw) }
        plan.length qt.2 := by
  intro qt hqt
  simp only [get_observation_queries] at h
  split at h
  · exact absurd h (by simp)
  next tables heq =>
    have hp : plan = tables.map
        (fun t => (observation_query
          { args with nodes := some (resolvedNodes args cat stw) }
          tables.length t, t)) := by
      injection h with h'
      exact h'.symm
    subst hp
    rw [List.length_map]
    rcases List.mem_map.mp hqt with ⟨t, _, hqt'⟩
    cases hqt'
    rfl

/-- If some candidate feature's table is absent, the table-loading loop
fails with the (lowered) name of a missing table. -/
lemma lookupTables_error_of_missing (wh : List TableData) :
    ∀ l : List String, (∃ f ∈ l, warehouseLookup wh (pyLower f) = none) →
    ∃ u, lookupTables wh l = .error u ∧ warehouseLookup wh u = none := by
  intro l
  induction l with
  | nil =>
    rintro ⟨f, hf, _⟩
    exact absurd hf (List.not_mem_nil f)
  | cons g gs ih =>
    rintro ⟨f, hf, hmiss⟩
    cases hlook : warehouseLookup wh (pyLower g) with
    | none => exact ⟨pyLower g, by simp [lookupTables, hlook], hlook⟩
    | some t =>
      rcases List.mem_cons.mp hf with hfg | hfgs
      · subst hfg
        rw [hlook] at hmiss
        cases hmiss
      · rcases ih ⟨f, hfgs, hmiss⟩ with ⟨u, herr, hu⟩
        exact ⟨u, by simp [lookupTables, hlook, herr, Except.map], hu⟩

/-- C1: the claim states the intent, and the planner half of it is real —
at the failing input (feature `temperature` requested, warehouse without
a `temperature` table) `get_observation_queries` fails fast with the
HTTP 400 response naming the missing table, no partial plan is built and
no store operation ever runs.  But the code then has a slip: both
`get_observations` (lines 205-206) and `get_observation_datadump`
(lines 556-561) pass that response object on as if it were the query
plan, and iterating/unpacking it raises, so the request and the datadump
run die with an unhandled exception (HTTP 500) with the job state
untouched — the 400 naming the table never reaches the client. -/
theorem C1_missing_table_crash :
    get_observation_queries cArgs cCat (fun _ => true) [] =
      .error (bad_request "Table temperature not found") ∧
    (bad_request "Table temperature not found").status = 400 ∧
    get_observations cArgs cCat (fun _ => true) [] =
      .crashed500 (bad_request "Table temperature not found") ∧
    get_observation_datadump cEnv (fun _ => true) cArgs "tick" cCat
        (fun _ => true) [] cSt0 =
      .error (.unhandledCrash (bad_request "Table temperature not found"),
              cSt0) :=
  ⟨rfl, rfl, rfl, rfl⟩

/-- C5: every record in the final merged and sorted result set of an
observation query lies in the half-open window
`[start_datetime, end_datetime)` — each per-table query filters
`datetime >= start` and `datetime < end`. -/
theorem C5_observation_window (args : QueryData) (cat : Catalog)
    (stw : Nat → Bool) (wh : List TableData)
    (plan : List (ObsQuery × TableData)) (res : List ObsRecord) (rec : ObsRecord)
    (hplan : get_observation_queries args cat stw wh = .ok plan)
    (hres : res.Perm (collectResults plan))
    (hrec : rec ∈ sortResults res) :
    args.start_datetime ≤ rec.datetime ∧ rec.datetime < args.end_datetime := by
  have h1 : rec ∈ res := (List.perm_insertionSort dtLe res).mem_iff.mp hrec
  have h2 : rec ∈ collectResults plan := hres.mem_iff.mp h1
  rcases List.mem_flatMap.mp h2 with ⟨qt, hqtmem, hrecmem⟩
  rcases List.mem_map.mp hrecmem with ⟨row, hrow, hfmt⟩
  have hb := runQuery_datetime_bounds hrow
  rw [plan_shape hplan qt hqtmem] at hb
  subst hfmt
  exact hb

/-- The plan the planner produces on the fixtures. -/
def cPlan : List (ObsQuery × TableData) :=
  match get_observation_queries cArgs cCat (fun _ => true) cWh with
  | .ok p => p
  | .error _ => []

/-- Witness for C5 on the fixtures. -/
theorem C5_witness :
    cArgs.start_datetime ≤ (format_observation rowA tempTable).datetime ∧
    (format_observation rowA tempTable).datetime < cArgs.end_datetime :=
  C5_observation_window cArgs cCat (fun _ => true) cWh cPlan
    (collectResults cPlan) (format_observation rowA tempTable) rfl
    (List.Perm.refl _) (by decide)

/-- C6: every per-table query of a plan over `N = plan.length` resolved
tables is built with `limit = floor(requested_limit / N)`, and with
`offset = floor(requested_offset / N)` applied exactly when the requested
offset is nonzero. -/
theorem C6_limit_offset_partition (args : QueryData) (cat : Catalog)
    (stw : Nat → Bool) (wh : List TableData)
    (plan : List (ObsQuery × TableData))
    (hplan : get_observation_queries args cat stw wh = .ok plan) :
    ∀ qt ∈ plan,
      qt.1.limit = args.limit / plan.length ∧
      qt.1.offset = (if args.offset ≠ 0
                     then some (args.offset / plan.length) else none) := by
  intro qt hqt
  rw [plan_shape hplan qt hqt]
  exact ⟨rfl, rfl⟩

/-- The single plan entry on the fixtures. -/
def cQt : ObsQuery × TableData :=
  (observation_query { cArgs with nodes := some ["a", "b"] } 1 tempTable,
   tempTable)

/-- Witness for C6 on the fixtures. -/
theorem C6_witness :
    cQt.1.limit = cArgs.limit / cPlan.length ∧
    cQt.1.offset = (if cArgs.offset ≠ 0
                    then some (cArgs.offset / cPlan.length) else none) :=
  C6_limit_offset_partition cArgs cCat (fun _ => true) cWh cPlan rfl
    cQt (by decide)

/-! C3: global sort and order-(in)dependence of the fan-out. -/

/-- Fixture row on node `x` at time 5. -/
def rowX : ObsRow :=
  { node_id := "x", datetime := 5, sensor := "s", meta_id := 1, props := [] }

/-- Fixture row on node `y`, same timestamp as `rowX`. -/
def rowY : ObsRow :=
  { node_id := "y", datetime := 5, sensor := "s", meta_id := 2, props := [] }

/-- Fixture table holding only `rowX`. -/
def tableX : TableData := { name := "tx", rows := [rowX] }

/-- Fixture table holding only `rowY`. -/
def tableY : TableData := { name := "ty", rows := [rowY] }

/-- An unfiltered query over the whole window of a table. -/
def openQuery (t : TableData) : ObsQuery :=
  { table := t, start_dt := 0, end_dt := 10, nodeFilter := none,
    sensorFilter := none, limit := 10, offset := none }

/-- A two-table plan whose tables hold one record each, with equal
timestamps. -/
def c3Qs : List (ObsQuery × TableData) :=
  [(openQuery tableX, tableX), (openQuery tableY, tableY)]

/-- The formatted record of `rowX`. -/
def recX : ObsRecord := format_observation rowX tableX

/-- The formatted record of `rowY`. -/
def recY : ObsRecord := format_observation rowY tableY

/-- Counterexample to C3 as stated: the two fan-out tasks of `c3Qs`
produce one record each with equal timestamps; the interleaving
`[recY, recX]` is a permutation of the canonical collection order
`[recX, recY]`, yet the final stable sort of the two interleavings
differs — the sorted output is not invariant under reordering the
per-table appends. -/
theorem C3_counterexample :
    ([recY, recX]).Perm (collectResults c3Qs) ∧
    sortResults [recY, recX] ≠ sortResults (collectResults c3Qs) := by
  constructor
  · have h : collectResults c3Qs = [recX, recY] := rfl
    rw [h]
    exact List.Perm.swap recX recY []
  · decide

/-- C3 (amended): the final merged result set is sorted non-decreasing by
datetime, and reordering the per-table fan-out appends leaves the sorted
output unchanged as a multiset (equal up to permutation of equal-datetime
records), though not necessarily as a list. -/
theorem C3_sorted_order_independent_mod_perm
    (qs : List (ObsQuery × TableData)) (res res' : List ObsRecord)
    (h : res.Perm (collectResults qs)) (h' : res'.Perm (collectResults qs)) :
    List.Sorted dtLe (sortResults res) ∧
    (sortResults res).Perm (sortResults res') :=
  ⟨List.sorted_insertionSort dtLe res,
   ((List.perm_insertionSort dtLe res).trans (h.trans h'.symm)).trans
     (List.perm_insertionSort dtLe res').symm⟩

/-- Witness for the amended C3 on the two-record fixture. -/
theorem C3_witness :
    List.Sorted dtLe (sortResults [recY, recX]) ∧
    (sortResults [recY, recX]).Perm (sortResults (collectResults c3Qs)) :=
  C3_sorted_order_independent_mod_perm c3Qs [recY, recX]
    (collectResults c3Qs)
    (by rw [show collectResults c3Qs = [recX, recY] from rfl]
        exact List.Perm.swap recX recY [])
    (List.Perm.refl _)

/-! C9: empty filters. -/

/-- Fixture arguments with an empty nodes filter but a geometry filter. -/
def c9Args : QueryData := { cArgs with geom := some "g" }

/-- Fixture containment oracle: only location 0 (node `a`) lies within
the request geometry. -/
def c9Stw : Nat → Bool := fun loc => loc == 0

/-- Counterexample to C9 as stated: a valid request with an empty nodes
filter but a geometry filter queries only the nodes inside the geometry
(`["a"]`), not the Catalog's full node list for the network
(`["a", "b"]`). -/
theorem C9_counterexample :
    truthyList c9Args.nodes = false ∧
    (node_metadata_query c9Args cCat.nodes c9Stw).map (fun n => n.id) = ["a"] ∧
    (cCat.nodes.filter (fun n =>
      pyLower n.sensor_network == pyLower c9Args.network_name)).map
        (fun n => n.id) = ["a", "b"] ∧
    (["a"] : List String) ≠ ["a", "b"] := by
  decide

/-- C9 (amended): with no node-id, node-list or geometry filter the node
metadata query returns exactly the network's full node list; an empty
requested sensor set still yields a valid empty plan; and whenever every
candidate feature's table exists the planner returns a valid (possibly
empty) plan — never an error — regardless of how few nodes or sensors
resolved. -/
theorem C9_empty_filters (args : QueryData) (cat : Catalog)
    (stw : Nat → Bool) (wh : List TableData) :
    (truthyOptStr args.node_id = false → truthyList args.nodes = false →
      truthyOptStr args.geom = false →
      node_metadata_query args cat.nodes stw =
        cat.nodes.filter (fun n =>
          pyLower n.sensor_network == pyLower args.network_name))
    ∧ (args.sensors = [] → get_observation_queries args cat stw wh = .ok [])
    ∧ (∀ tables,
        lookupTables wh (resolveFeatures
          { args with nodes := some (resolvedNodes args cat stw) } cat) =
            .ok tables →
        ∃ plan, get_observation_queries args cat stw wh = .ok plan) := by
  refine ⟨?_, ?_, ?_⟩
  · intro h1 h2 h3
    simp [node_metadata_query, h1, h2, h3]
  · intro hs
    have hrf : resolveFeatures
        { args with nodes := some (resolvedNodes args cat stw) } cat = [] := by
      simp [resolveFeatures, hs]
    simp only [get_observation_queries]
    rw [hrf]
    rfl
  · intro tables ht
    refine ⟨tables.map (fun t => (observation_query
      { args with nodes := some (resolvedNodes args cat stw) }
      tables.length t, t)), ?_⟩
    simp only [get_observation_queries]
    rw [ht]

/-- Witness for the amended C9 on the fixtures. -/
theorem C9_witness :
    node_metadata_query cArgs cCat.nodes (fun _ => true) =
      cCat.nodes.filter (fun n =>
        pyLower n.sensor_network == pyLower cArgs.network_name) ∧
    get_observation_queries { cArgs with sensors := [] } cCat
      (fun _ => true) cWh = .ok [] ∧
    ∃ plan, get_observation_queries cArgs cCat (fun _ => true) cWh = .ok plan :=
  ⟨(C9_empty_filters cArgs cCat (fun _ => true) cWh).1 rfl rfl rfl,
   (C9_empty_filters { cArgs with sensors := [] } cCat (fun _ => true) cWh).2.1 rfl,
   (C9_empty_filters cArgs cCat (fun _ => true) cWh).2.2 [tempTable] rfl⟩

/-! C7: echoed query metadata. -/

/-- A lookup misses when no entry carries the key. -/
lemma lookup_eq_none_of_keys {β : Type} {d : List (String × β)} {k : String}
    (h : ∀ kv ∈ d, kv.1 ≠ k) : d.lookup k = none := by
  induction d with
  | nil => rfl
  | cons kv rest ih =>
    have hk : (k == kv.1) = false :=
      beq_eq_false_iff_ne.mpr fun he => h kv (List.mem_cons_self kv rest) he.symm
    simp only [List.lookup, hk]
    exact ih fun kv' h' => h kv' (List.mem_cons_of_mem _ h')

/-- A successful lookup exhibits a member with that key. -/
lemma mem_of_lookup_eq_some {β : Type} {d : List (String × β)} {k : String}
    {v : β} (h : d.lookup k = some v) : (k, v) ∈ d := by
  induction d with
  | nil => cases h
  | cons kv rest ih =>
    by_cases hk : (k == kv.1) = true
    · simp only [List.lookup, hk] at h
      have hke : k = kv.1 := by simpa using hk
      have hv : v = kv.2 := by
        cases h
        rfl
      rw [hke, hv]
      exact List.mem_cons_self _ _
    · have hkf : (k == kv.1) = false := by
        simpa using hk
      simp only [List.lookup, hkf] at h
      exact List.mem_cons_of_mem _ (ih h)

/-- Membership through the conditional datetime-strip map: keys are
preserved. -/
lemma mem_strip_map {d : ArgDict} {key : String} {kv : String × PyVal}
    (h : kv ∈ d.map (fun kv =>
      if kv.1 = key then (kv.1, stripPlusVal kv.2) else kv)) :
    ∃ kv' ∈ d, kv.1 = kv'.1 := by
  rcases List.mem_map.mp h with ⟨kv', h', he⟩
  refine ⟨kv', h', ?_⟩
  by_cases hk : kv'.1 = key
  · rw [← he]
    simp [hk]
  · rw [← he]
    simp [hk]

/-- Membership through the guarded datetime-strip step. -/
lemma mem_ite_strip {d : ArgDict} {c : Bool} {key : String} {kv : String × PyVal}
    (h : kv ∈ (if c = true then d.map (fun kv =>
      if kv.1 = key then (kv.1, stripPlusVal kv.2) else kv) else d)) :
    ∃ kv' ∈ d, kv.1 = kv'.1 := by
  split at h
  · exact mem_strip_map h
  · exact ⟨kv, h, rfl⟩

/-- Membership through `eraseKey`. -/
lemma mem_eraseKey {d : ArgDict} {k : String} {kv : String × PyVal}
    (h : kv ∈ eraseKey d k) : kv ∈ d ∧ kv.1 ≠ k := by
  have hf := List.mem_filter.mp h
  exact ⟨hf.1, by simpa using hf.2⟩

/-- Membership through a pop guarded by request-key presence. -/
lemma mem_ite_eraseKey {d : ArgDict} {c : Bool} {k : String} {kv : String × PyVal}
    (h : kv ∈ (if c = true then d else eraseKey d k)) :
    kv ∈ d ∧ (c = false → kv.1 ≠ k) := by
  split at h
  next hc => exact ⟨h, fun hcf => absurd hc (by simp [hcf])⟩
  next hc =>
    rcases mem_eraseKey h with ⟨h1, h2⟩
    exact ⟨h1, fun _ => h2⟩

/-- Every entry surviving the metadata shaping is non-null, is not `geom`,
and is none of `nodes`/`features_of_interest`/`sensors` unless the caller
supplied that key. -/
lemma displayData_mem {rk : List String} {d : ArgDict} :
    ∀ kv ∈ displayData rk d,
      kv.2 ≠ PyVal.null ∧ kv.1 ≠ "geom" ∧
      (rk.contains "nodes" = false → kv.1 ≠ "nodes") ∧
      (rk.contains "features_of_interest" = false →
        kv.1 ≠ "features_of_interest") ∧
      (rk.contains "sensors" = false → kv.1 ≠ "sensors") := by
  intro kv hkv
  simp only [displayData] at hkv
  have h0 := List.mem_filter.mp hkv
  have hnull : kv.2 ≠ PyVal.null := by simpa using h0.2
  rcases mem_ite_strip h0.1 with ⟨kv1, h1, hk1⟩
  rcases mem_ite_strip h1 with ⟨kv2, h2, hk2⟩
  rcases mem_eraseKey h2 with ⟨h3, hgeom⟩
  rcases mem_ite_eraseKey h3 with ⟨h4, hsens⟩
  rcases mem_ite_eraseKey h4 with ⟨h5, hfoi⟩
  rcases mem_ite_eraseKey h5 with ⟨_, hnodes⟩
  have hkk : kv.1 = kv2.1 := hk1.trans hk2
  rw [hkk]
  exact ⟨hnull, hgeom, hnodes, hfoi, hsens⟩

/-- C7: the echoed query metadata never resolves a key to a null value,
never contains the internal `geom` field (request keys pass the
validator's field allowlist, which does not include `geom`), and omits
each of `nodes`, `features_of_interest` and `sensors` when the caller did
not supply that key in the request. -/
theorem C7_echoed_metadata (ra : List (String × String)) (d : ArgDict)
    (hallow : ∀ kv ∈ ra, kv.1 ∈ observationFields) :
    (∀ k, display_args ra d k ≠ some PyVal.null) ∧
    display_args ra d "geom" = none ∧
    (∀ k, (k = "nodes" ∨ k = "features_of_interest" ∨ k = "sensors") →
      (∀ kv ∈ ra, kv.1 ≠ k) → display_args ra d k = none) := by
  refine ⟨?_, ?_, ?_⟩
  · intro k
    simp only [display_args]
    cases hl : (displayData (ra.map Prod.fst) d).lookup k with
    | some v =>
      have hv := (displayData_mem _ (mem_of_lookup_eq_some hl)).1
      exact fun he => hv (Option.some.inj he)
    | none =>
      cases hr : ra.lookup k with
      | some s => simp
      | none => simp
  · simp only [display_args]
    have h1 : (displayData (ra.map Prod.fst) d).lookup "geom" = none :=
      lookup_eq_none_of_keys fun kv hkv => (displayData_mem _ hkv).2.1
    have h2 : ra.lookup "geom" = none := by
      apply lookup_eq_none_of_keys
      intro kv hkv he
      have := hallow kv hkv
      rw [he] at this
      exact absurd this (by decide)
    rw [h1, h2]
    rfl
  · intro k hk hnk
    simp only [display_args]
    have hc : (ra.map Prod.fst).contains k = false := by
      have hnm : ¬ k ∈ ra.map Prod.fst := by
        intro hm
        rcases List.mem_map.mp hm with ⟨kv, hkv, he⟩
        exact hnk kv hkv he
      simpa using hnm
    have h1 : (displayData (ra.map Prod.fst) d).lookup k = none := by
      apply lookup_eq_none_of_keys
      intro kv hkv
      have hm := displayData_mem _ hkv
      rcases hk with h | h | h
      · subst h
        exact hm.2.2.1 hc
      · subst h
        exact hm.2.2.2.1 hc
      · subst h
        exact hm.2.2.2.2 hc
    have h2 : ra.lookup k = none := lookup_eq_none_of_keys hnk
    rw [h1, h2]
    rfl

/-- Fixture raw request arguments. -/
def c7Ra : List (String × String) :=
  [("network_name", "net"), ("start_datetime", "2016-01-01T00:00:00+00:00")]

/-- Fixture validated argument dict, with null entries and `geom`. -/
def c7D : ArgDict :=
  [("network_name", .str "net"), ("nodes", .strs ["a", "b"]),
   ("features_of_interest", .strs ["temperature"]),
   ("sensors", .strs ["s1"]), ("geom", .null), ("node_id", .null),
   ("start_datetime", .str "2016-01-01T00:00:00+00:00"),
   ("limit", .intval 1000)]

/-- Witness for C7 on the fixtures. -/
theorem C7_witness :
    display_args c7Ra c7D "node_id" ≠ some PyVal.null ∧
    display_args c7Ra c7D "geom" = none ∧
    display_args c7Ra c7D "nodes" = none :=
  ⟨(C7_echoed_metadata c7Ra c7D (by decide)).1 "node_id",
   (C7_echoed_metadata c7Ra c7D (by decide)).2.1,
   (C7_echoed_metadata c7Ra c7D (by decide)).2.2 "nodes" (Or.inl rfl) (by decide)⟩

/-! Datadump run lemmas. -/

/-- The DataDump rows a list of store operations commits, in order. -/
def opsDumps (ops : List DDOp) : List DataDump :=
  ops.filterMap (fun op => match op with
    | .commitDump d => some d
    | _ => none)

lemma opsDumps_append (a b : List DDOp) :
    opsDumps (a ++ b) = opsDumps a ++ opsDumps b :=
  List.filterMap_append a b _

/-- With every commit succeeding, running the operations is a fold of
their effects. -/
lemma runOps_all_ok (ops : List DDOp) :
    ∀ n st, runOps (fun _ => true) ops n st = .ok (ops.foldl applyOp st) := by
  induction ops with
  | nil => intro n st; rfl
  | cons op rest ih =>
    intro n st
    cases op with
    | commitDump d => simp [runOps, ih]
    | setStatusProgress done total => simp [runOps, ih]
    | putFlag k v ttl => simp [runOps, ih]

/-- Folding store operations appends exactly the committed rows. -/
lemma foldl_applyOp_dumps (ops : List DDOp) :
    ∀ st : JobState, (ops.foldl applyOp st).dumps = st.dumps ++ opsDumps ops := by
  induction ops with
  | nil => intro st; simp [opsDumps]
  | cons op rest ih =>
    intro st
    cases op with
    | commitDump d => simp [ih, applyOp, opsDumps]
    | setStatusProgress done total => simp [ih, applyOp, opsDumps]
    | putFlag k v ttl => simp [ih, applyOp, opsDumps]

/-- A run that aborts has only appended to the committed rows. -/
lemma runOps_error_dumps {ok : Nat → Bool} :
    ∀ (ops : List DDOp) (n : Nat) (st st' : JobState),
      runOps ok ops n st = .error st' → ∃ t, st'.dumps = st.dumps ++ t := by
  intro ops
  induction ops with
  | nil =>
    intro n st st' h
    cases h
  | cons op rest ih =>
    intro n st st' h
    cases op with
    | commitDump d =>
      simp only [runOps] at h
      split at h
      · rcases ih _ _ _ h with ⟨t, ht⟩
        refine ⟨d :: t, ?_⟩
        rw [ht]
        simp [applyOp]
      · cases h
        exact ⟨[], (List.append_nil _).symm⟩
    | setStatusProgress done total =>
      simp only [runOps] at h
      rcases ih _ _ _ h with ⟨t, ht⟩
      exact ⟨t, ht⟩
    | putFlag k v ttl =>
      simp only [runOps] at h
      rcases ih _ _ _ h with ⟨t, ht⟩
      exact ⟨t, ht⟩

/-- The store operations of one chunk flush commit exactly one page row. -/
lemma opsDumps_store_chunk_ops (cid : String) (chunk : List ObsRecord)
    (cc number : Nat) (rid : String) :
    opsDumps (store_chunk_ops cid chunk cc number rid) =
      [{ id := cid, request := rid, part := number, total := cc,
         data := .page chunk }] := rfl

/-- Shape of the chunk loop's committed rows: parts are consecutive from
the starting chunk number, every row carries the fixed total and the
request ticket, and every row is a data page. -/
lemma chunkLoop_spec (cid : Nat → String) (rid : String) (cc : Nat) :
    ∀ (rows buffer : List ObsRecord) (number : Nat),
      ∃ m, (chunkLoop cid rid cc rows buffer number).2.2 = number + m ∧
        (opsDumps (chunkLoop cid rid cc rows buffer number).1).map
          (fun d => d.part) = List.range' number m ∧
        ∀ d ∈ opsDumps (chunkLoop cid rid cc rows buffer number).1,
          d.total = cc ∧ d.request = rid ∧ isPage d.data = true := by
  intro rows
  induction rows with
  | nil =>
    intro buffer number
    exact ⟨0, rfl, rfl, by simp [chunkLoop, opsDumps]⟩
  | cons r rest ih =>
    intro buffer number
    by_cases h1000 : 1000 < (buffer ++ [r]).length
    · rcases ih [] (number + 1) with ⟨m, hfin, hparts, hprops⟩
      refine ⟨m + 1, ?_, ?_, ?_⟩
      · simp only [chunkLoop, h1000, if_true]
        omega
      · simp only [chunkLoop, h1000, if_true, opsDumps_append,
          opsDumps_store_chunk_ops, List.map_append, List.map_cons,
          List.map_nil, List.nil_append]
        rw [List.range'_succ]
        simp [hparts]
      · intro d hd
        simp only [chunkLoop, h1000, if_true, opsDumps_append,
          opsDumps_store_chunk_ops] at hd
        rcases List.mem_append.mp hd with hd1 | hd2
        · rcases List.mem_singleton.mp hd1 with rfl
          exact ⟨rfl, rfl, rfl⟩
        · exact hprops d hd2
    · rcases ih (buffer ++ [r]) number with ⟨m, hfin, hparts, hprops⟩
      refine ⟨m, ?_, ?_, ?_⟩
      · simpa only [chunkLoop, h1000, if_false] using hfin
      · simpa only [chunkLoop, h1000, if_false] using hparts
      · simpa only [chunkLoop, h1000, if_false] using hprops

/-- Rows whose parts form a 1-based range all have positive part. -/
lemma parts_pos_of_range {ds : List DataDump} {m : Nat}
    (h : ds.map (fun d => d.part) = List.range' 1 m) :
    ∀ d ∈ ds, 1 ≤ d.part := by
  intro d hd
  have hm : d.part ∈ ds.map (fun d => d.part) :=
    List.mem_map_of_mem _ hd
  rw [h] at hm
  exact (List.mem_range'_1.mp hm).1

/-- Rows with positive part are all removed by the part-0 filter. -/
lemma partZeroFilter_of_pos {ds : List DataDump}
    (h : ∀ d ∈ ds, 1 ≤ d.part) :
    ds.filter (fun d => d.part == 0) = [] := by
  rw [List.filter_eq_nil_iff]
  intro d hd hbeq
  have h0 : d.part = 0 := by simpa using hbeq
  have := h d hd
  omega

/-- Full shape of the committed rows of one completed datadump run's
operations: the data-page parts are exactly `1, ..., k` for some `k`,
every committed row carries the fixed chunk total, and exactly one row —
the metadata document — has part 0. -/
lemma datadump_ops_spec (env : DumpEnv) (rid startTime : String)
    (queries : List (ObsQuery × TableData)) (limit : Nat) :
    ∃ k,
      ((opsDumps (get_observation_datadump_ops env rid startTime queries limit)).filter
          (fun d => isPage d.data)).map (fun d => d.part) = List.range' 1 k ∧
      (∀ d ∈ opsDumps (get_observation_datadump_ops env rid startTime queries limit),
          d.total = chunk_count_of (dump_row_count env queries limit)) ∧
      (opsDumps (get_observation_datadump_ops env rid startTime queries limit)).filter
          (fun d => d.part == 0) =
        [{ id := rid, request := rid, part := 0,
           total := chunk_count_of (dump_row_count env queries limit),
           data := .metadoc startTime env.now [env.workerid]
                     (dump_features queries) }] := by
  rcases hout : chunkLoop env.chunkId rid
      (chunk_count_of (dump_row_count env queries limit))
      (datadump_rows queries) [] 1 with ⟨lops, buf, fin⟩
  rcases chunkLoop_spec env.chunkId rid
      (chunk_count_of (dump_row_count env queries limit))
      (datadump_rows queries) [] 1 with ⟨m, hfin, hparts, hprops⟩
  rw [hout] at hfin hparts hprops
  simp only at hfin hparts hprops
  have hpos := parts_pos_of_range hparts
  have hpages : ∀ d ∈ opsDumps lops, isPage d.data = true :=
    fun d hd => (hprops d hd).2.2
  have hmeta : opsDumps [DDOp.commitDump
      { id := rid, request := rid, part := 0,
        total := chunk_count_of (dump_row_count env queries limit),
        data := .metadoc startTime env.now [env.workerid]
                  (dump_features queries) }] =
      [{ id := rid, request := rid, part := 0,
         total := chunk_count_of (dump_row_count env queries limit),
         data := .metadoc startTime env.now [env.workerid]
                   (dump_features queries) }] := rfl
  simp only [get_observation_datadump_ops, hout]
  by_cases hbuf : buf.length ≠ 0
  · have hsc : opsDumps (store_chunk_ops (env.chunkId fin) buf
        (chunk_count_of (dump_row_count env queries limit)) fin rid) =
        [{ id := env.chunkId fin, request := rid, part := fin,
           total := chunk_count_of (dump_row_count env queries limit),
           data := .page buf }] := rfl
    have hfinz : (fin == 0) = false := beq_eq_false_iff_ne.mpr (by omega)
    refine ⟨m + 1, ?_, ?_, ?_⟩
    · simp only [if_pos hbuf, opsDumps_append, hsc, hmeta,
        List.filter_append, List.map_append]
      rw [List.filter_eq_self.mpr hpages]
      simp only [List.filter_cons, List.filter_nil, isPage, if_true,
        Bool.false_eq_true, if_false, List.map_nil, List.map_cons,
        List.append_nil]
      rw [hparts, hfin, List.range'_1_concat]
    · intro d hd
      simp only [if_pos hbuf, opsDumps_append, hsc, hmeta] at hd
      rcases List.mem_append.mp hd with hd1 | hd2
      · rcases List.mem_append.mp hd1 with hd3 | hd4
        · exact (hprops d hd3).1
        · rcases List.mem_singleton.mp hd4 with rfl
          rfl
      · rcases List.mem_singleton.mp hd2 with rfl
        rfl
    · simp only [if_pos hbuf, opsDumps_append, hsc, hmeta,
        List.filter_append]
      rw [partZeroFilter_of_pos hpos]
      simp only [List.filter_cons, List.filter_nil, hfinz,
        Bool.false_eq_true, if_false, List.nil_append, List.append_nil]
      rfl
  · refine ⟨m, ?_, ?_, ?_⟩
    · simp only [if_neg hbuf, List.append_nil, opsDumps_append, hmeta,
        List.filter_append, List.map_append]
      rw [List.filter_eq_self.mpr hpages]
      simp only [List.filter_cons, List.filter_nil, isPage,
        Bool.false_eq_true, if_false, List.map_nil, List.append_nil,
        List.nil_append]
      exact hparts
    · intro d hd
      simp only [if_neg hbuf, List.append_nil, opsDumps_append, hmeta] at hd
      rcases List.mem_append.mp hd with hd1 | hd2
      · exact (hprops d hd1).1
      · rcases List.mem_singleton.mp hd2 with rfl
        rfl
    · simp only [if_neg hbuf, List.append_nil, opsDumps_append, hmeta,
        List.filter_append]
      rw [partZeroFilter_of_pos hpos]
      simp only [List.nil_append]
      rfl

/-- Extracting the final state of a completed (all-commits-succeed) run. -/
lemma datadump_ok_state {env : DumpEnv} {args : QueryData} {rid : String}
    {cat : Catalog} {stw : Nat → Bool} {wh : List TableData}
    {st0 st' : JobState} {url : String}
    {queries : List (ObsQuery × TableData)}
    (hq : get_observation_queries args cat stw wh = .ok queries)
    (hrun : get_observation_datadump env (fun _ => true) args rid cat stw wh st0
      = .ok (url, st')) :
    st' = (get_observation_datadump_ops env rid st0.status.meta_startTime
            queries args.limit).foldl applyOp st0 := by
  simp only [get_observation_datadump, hq, runOps_all_ok] at hrun
  simp only [Except.ok.injEq, Prod.mk.injEq] at hrun
  exact hrun.2.symm

/-- The fixture datadump run (limit 5000, one matching row, every commit
succeeding). -/
def cDump : Except (DumpErr × JobState) (String × JobState) :=
  get_observation_datadump cEnv (fun _ => true) cArgs "tick" cCat
    (fun _ => true) cWh cSt0

/-- The job state the fixture datadump run completes in. -/
def cDumpSt : JobState :=
  match cDump with
  | .ok (_, st) => st
  | .error (_, st) => st

/-- Counterexample to C2 as stated: the fixture job completes with a
single data chunk (parts `[1]`), yet every persisted row carries
`total = 5` (the limit-derived estimate `ceil(5000/1000)`), so the set of
persisted part numbers is not `{1, ..., total}` — part 2 is never
written. -/
theorem C2_counterexample :
    cDump = .ok ("u/v1/api/datadump/tick", cDumpSt) ∧
    pageParts cDumpSt = [1] ∧
    cDumpSt.dumps.all (fun d => d.total == 5) = true ∧
    2 ∉ pageParts cDumpSt ∧ 2 ∈ List.range' 1 5 :=
  ⟨rfl, by decide, by decide, by decide, by decide⟩

/-- C2 (amended): for every completed datadump job started on a fresh
ticket, the persisted data-chunk part numbers are exactly `1, ..., k` for
some `k` — contiguous from 1, no gaps, no duplicates — and every
persisted row (data chunks and the part-0 metadata record alike) carries
one shared `total` value, computed once before any chunk was written;
`k` need not equal `total`, since `total` derives from the row-count
estimate (or the limit) while `k` counts the buffer flushes over the rows
actually fetched. -/
theorem C2_chunk_parts_contiguous (env : DumpEnv) (args : QueryData)
    (rid : String) (cat : Catalog) (stw : Nat → Bool) (wh : List TableData)
    (st0 st' : JobState) (url : String)
    (h0 : st0.dumps = [])
    (hrun : get_observation_datadump env (fun _ => true) args rid cat stw wh st0
      = .ok (url, st')) :
    ∃ total k, pageParts st' = List.range' 1 k ∧
      ∀ d ∈ st'.dumps, d.total = total := by
  cases hq : get_observation_queries args cat stw wh with
  | error r => simp [get_observation_datadump, hq] at hrun
  | ok queries =>
    have hst := datadump_ok_state hq hrun
    rcases datadump_ops_spec env rid st0.status.meta_startTime queries
      args.limit with ⟨k, h1, h2, h3⟩
    refine ⟨chunk_count_of (dump_row_count env queries args.limit), k, ?_, ?_⟩
    · rw [hst]
      simp only [pageParts, foldl_applyOp_dumps, h0, List.nil_append]
      exact h1
    · intro d hd
      rw [hst, foldl_applyOp_dumps, h0, List.nil_append] at hd
      exact h2 d hd

/-- Witness for the amended C2 on the fixture run. -/
theorem C2_witness :
    ∃ total k, pageParts cDumpSt = List.range' 1 k ∧
      ∀ d ∈ cDumpSt.dumps, d.total = total :=
  C2_chunk_parts_contiguous cEnv cArgs "tick" cCat (fun _ => true) cWh cSt0
    cDumpSt "u/v1/api/datadump/tick" rfl rfl

/-- C4: every row persisted by a completed datadump carries
`total = ceil(row_count / 1000)` where `row_count` is the summed
per-table `fast_count` estimate unless a nonzero limit was supplied, in
which case the limit replaces the estimate; this value is computed once
before any chunk is written (every row shares it), and a job with
`limit = 2500` yields `total = 3` regardless of the true matching row
count. -/
theorem C4_total_chunk_count (env : DumpEnv) (args : QueryData)
    (rid : String) (cat : Catalog) (stw : Nat → Bool) (wh : List TableData)
    (st0 st' : JobState) (url : String)
    (queries : List (ObsQuery × TableData))
    (h0 : st0.dumps = [])
    (hq : get_observation_queries args cat stw wh = .ok queries)
    (hrun : get_observation_datadump env (fun _ => true) args rid cat stw wh st0
      = .ok (url, st')) :
    (∀ d ∈ st'.dumps,
      d.total = ((if args.limit ≠ 0 then args.limit
        else (queries.map (fun qt => env.fastCount qt.1)).sum) + 999) / 1000) ∧
    (args.limit = 2500 → ∀ d ∈ st'.dumps, d.total = 3) := by
  have hst := datadump_ok_state hq hrun
  rcases datadump_ops_spec env rid st0.status.meta_startTime queries
    args.limit with ⟨k, h1, h2, h3⟩
  have htot : ∀ d ∈ st'.dumps,
      d.total = chunk_count_of (dump_row_count env queries args.limit) := by
    intro d hd
    rw [hst, foldl_applyOp_dumps, h0, List.nil_append] at hd
    exact h2 d hd
  constructor
  · intro d hd
    exact htot d hd
  · intro hlim d hd
    rw [htot d hd, hlim]
    simp [dump_row_count, chunk_count_of]

/-- Witness for C4 on the fixture run. -/
theorem C4_witness :
    (∀ d ∈ cDumpSt.dumps,
      d.total = ((if cArgs.limit ≠ 0 then cArgs.limit
        else (cPlan.map (fun qt => cEnv.fastCount qt.1)).sum) + 999) / 1000) ∧
    (cArgs.limit = 2500 → ∀ d ∈ cDumpSt.dumps, d.total = 3) :=
  C4_total_chunk_count cEnv cArgs "tick" cCat (fun _ => true) cWh cSt0
    cDumpSt "u/v1/api/datadump/tick" cPlan rfl rfl rfl

/-- C10: a datadump run that completes persists, besides the numbered
data chunks, exactly one record with part number 0 for the same ticket,
whose payload is the metadata document carrying the job's start time
(from the status record), the end time, the worker-id list, and the set
of queried feature names. -/
theorem C10_metadata_record (env : DumpEnv) (args : QueryData)
    (rid : String) (cat : Catalog) (stw : Nat → Bool) (wh : List TableData)
    (st0 st' : JobState) (url : String)
    (queries : List (ObsQuery × TableData))
    (h0 : st0.dumps = [])
    (hq : get_observation_queries args cat stw wh = .ok queries)
    (hrun : get_observation_datadump env (fun _ => true) args rid cat stw wh st0
      = .ok (url, st')) :
    st'.dumps.filter (fun d => d.part == 0) =
      [{ id := rid, request := rid, part := 0,
         total := chunk_count_of (dump_row_count env queries args.limit),
         data := .metadoc st0.status.meta_startTime env.now [env.workerid]
                   (dump_features queries) }] := by
  have hst := datadump_ok_state hq hrun
  rcases datadump_ops_spec env rid st0.status.meta_startTime queries
    args.limit with ⟨k, h1, h2, h3⟩
  rw [hst, foldl_applyOp_dumps, h0, List.nil_append]
  exact h3

/-- Witness for C10 on the fixture run. -/
theorem C10_witness :
    cDumpSt.dumps.filter (fun d => d.part == 0) =
      [{ id := "tick", request := "tick", part := 0,
         total := chunk_count_of (dump_row_count cEnv cPlan cArgs.limit),
         data := .metadoc cSt0.status.meta_startTime cEnv.now [cEnv.workerid]
                   (dump_features cPlan) }] :=
  C10_metadata_record cEnv cArgs "tick" cCat (fun _ => true) cWh cSt0
    cDumpSt "u/v1/api/datadump/tick" cPlan rfl rfl rfl

/-! C8: persistence-failure semantics and progress accounting. -/

/-- Number of committed data chunks of a job state. -/
def pageCount (st : JobState) : Nat := (pageParts st).length

/-- Safety of an operation sequence started with `c` data chunks already
committed: every status-progress write is bounded by the number of data
chunks committed before it. -/
def SafeOps : Nat → List DDOp → Prop
  | _, [] => True
  | c, .commitDump d :: rest =>
      SafeOps (if isPage d.data then c + 1 else c) rest
  | c, .setStatusProgress done _ :: rest => done ≤ c ∧ SafeOps c rest
  | c, .putFlag _ _ _ :: rest => SafeOps c rest

/-- Committing a row bumps the data-chunk count exactly when the row is a
page. -/
lemma pageCount_commit (st : JobState) (d : DataDump) :
    pageCount (applyOp st (.commitDump d)) =
      if isPage d.data then pageCount st + 1 else pageCount st := by
  simp only [pageCount, pageParts, applyOp, List.filter_append,
    List.map_append, List.length_append]
  cases hp : isPage d.data <;> simp [List.filter_cons, hp]

/-- Along every prefix of a safe operation sequence, the persisted
progress counter never exceeds the number of committed data chunks. -/
lemma safe_prefix_invariant :
    ∀ (ops : List DDOp) (st : JobState), SafeOps (pageCount st) ops →
      doneOf st ≤ pageCount st →
      ∀ n, doneOf ((ops.take n).foldl applyOp st) ≤
        pageCount ((ops.take n).foldl applyOp st) := by
  intro ops
  induction ops with
  | nil =>
    intro st hs hd n
    simpa using hd
  | cons op rest ih =>
    intro st hs hd n
    cases n with
    | zero => simpa using hd
    | succ n =>
      rw [List.take_succ_cons, List.foldl_cons]
      cases op with
      | commitDump d =>
        simp only [SafeOps] at hs
        apply ih
        · rw [pageCount_commit]
          exact hs
        · have h1 : doneOf (applyOp st (.commitDump d)) = doneOf st := rfl
          rw [h1, pageCount_commit]
          split
          · omega
          · exact hd
      | setStatusProgress done total =>
        simp only [SafeOps] at hs
        apply ih
        · exact hs.2
        · exact hs.1
      | putFlag k v ttl =>
        simp only [SafeOps] at hs
        exact ih (applyOp st (.putFlag k v ttl)) hs hd n

/-- The three operations of one chunk flush are safe whenever the flushed
part number is at most one past the chunks committed so far. -/
lemma safeOps_append_store (cid : String) (chunk : List ObsRecord)
    (cc number c : Nat) (rid : String) (rest : List DDOp)
    (hn : number ≤ c + 1) (hrest : SafeOps (c + 1) rest) :
    SafeOps c (store_chunk_ops cid chunk cc number rid ++ rest) := by
  simp only [store_chunk_ops, List.cons_append, List.nil_append, SafeOps,
    isPage, if_true]
  exact ⟨hn, hrest⟩

/-- The chunk loop's operations are safe: it flushes chunk `number` only
after `number - 1` chunks were committed. -/
lemma chunkLoop_safe (cid : Nat → String) (rid : String) (cc : Nat) :
    ∀ (rows buffer : List ObsRecord) (number c : Nat) (rest : List DDOp),
      c + 1 = number →
      (∀ c', c' + 1 = (chunkLoop cid rid cc rows buffer number).2.2 →
        SafeOps c' rest) →
      SafeOps c ((chunkLoop cid rid cc rows buffer number).1 ++ rest) := by
  intro rows
  induction rows with
  | nil =>
    intro buffer number c rest hc hrest
    have h := hrest c (by simpa [chunkLoop] using hc)
    simpa [chunkLoop] using h
  | cons r rest' ih =>
    intro buffer number c rest hc hrest
    by_cases h1000 : 1000 < (buffer ++ [r]).length
    · have hlen : 1000 < buffer.length + 1 := by simpa using h1000
      have h22 : (chunkLoop cid rid cc (r :: rest') buffer number).2.2 =
          (chunkLoop cid rid cc rest' [] (number + 1)).2.2 := by
        simp only [chunkLoop, h1000, hlen, if_true]
      have h1 : (chunkLoop cid rid cc (r :: rest') buffer number).1 =
          store_chunk_ops (cid number) (buffer ++ [r]) cc number rid ++
            (chunkLoop cid rid cc rest' [] (number + 1)).1 := by
        simp only [chunkLoop, h1000, hlen, if_true]
      rw [h1, List.append_assoc]
      apply safeOps_append_store
      · omega
      · apply ih
        · omega
        · intro c' hc'
          apply hrest
          rw [h22]
          exact hc'
    · have hlen : ¬ 1000 < buffer.length + 1 := by simpa using h1000
      have h22 : (chunkLoop cid rid cc (r :: rest') buffer number).2.2 =
          (chunkLoop cid rid cc rest' (buffer ++ [r]) number).2.2 := by
        simp only [chunkLoop, h1000, hlen, if_false]
      have h1 : (chunkLoop cid rid cc (r :: rest') buffer number).1 =
          (chunkLoop cid rid cc rest' (buffer ++ [r]) number).1 := by
        simp only [chunkLoop, h1000, hlen, if_false]
      rw [h1]
      apply ih _ _ _ _ hc
      intro c' hc'
      apply hrest
      rw [h22]
      exact hc'

/-- The full operation sequence of a datadump run is safe from a fresh
state. -/
lemma datadump_ops_safe (env : DumpEnv) (rid startTime : String)
    (queries : List (ObsQuery × TableData)) (limit : Nat) :
    SafeOps 0 (get_observation_datadump_ops env rid startTime queries limit) := by
  simp only [get_observation_datadump_ops]
  rw [List.append_assoc]
  apply chunkLoop_safe
  · norm_num
  · intro c' hc'
    by_cases hbuf : (chunkLoop env.chunkId rid
        (chunk_count_of (dump_row_count env queries limit))
        (datadump_rows queries) [] 1).2.1.length ≠ 0
    · rw [if_pos hbuf]
      apply safeOps_append_store
      · omega
      · simp [SafeOps, isPage]
    · rw [if_neg hbuf, List.nil_append]
      simp [SafeOps, isPage]

/-- C8: a failing chunk commit is rolled back (state unchanged) and the
exception re-raised, leaving every previously committed chunk intact; any
aborting datadump run has only ever appended to the committed chunks; and
because the status progress is written only after its chunk's commit
succeeded, along every prefix of a run's operations the persisted
progress counter never exceeds the number of committed chunks (it can
understate it — e.g. between a commit and its status write — but never
overstate it). -/
theorem C8_rollback_and_progress :
    (∀ (cid : String) (chunk : List ObsRecord) (cc n : Nat) (rid : String)
       (st : JobState),
       store_chunk false cid chunk cc n rid st = .error st)
    ∧ (∀ (env : DumpEnv) (ok : Nat → Bool) (args : QueryData) (rid : String)
        (cat : Catalog) (stw : Nat → Bool) (wh : List TableData)
        (st0 : JobState) (e : DumpErr) (st' : JobState),
        get_observation_datadump env ok args rid cat stw wh st0 =
          .error (e, st') →
        ∃ t, st'.dumps = st0.dumps ++ t)
    ∧ (∀ (env : DumpEnv) (args : QueryData) (rid : String) (cat : Catalog)
        (stw : Nat → Bool) (wh : List TableData) (st0 : JobState)
        (queries : List (ObsQuery × TableData)),
        get_observation_queries args cat stw wh = .ok queries →
        st0.status.progress = none → st0.dumps = [] →
        ∀ n, doneOf (((get_observation_datadump_ops env rid
            st0.status.meta_startTime queries args.limit).take n).foldl
            applyOp st0)
          ≤ pageCount (((get_observation_datadump_ops env rid
            st0.status.meta_startTime queries args.limit).take n).foldl
            applyOp st0)) := by
  refine ⟨fun _ _ _ _ _ _ => rfl, ?_, ?_⟩
  · intro env ok args rid cat stw wh st0 e st' h
    simp only [get_observation_datadump] at h
    split at h
    · cases h
      exact ⟨[], (List.append_nil _).symm⟩
    · split at h
      next st'' heq =>
        cases h
        exact runOps_error_dumps _ _ _ _ heq
      next heq => cases h
  · intro env args rid cat stw wh st0 queries hq hp hd n
    apply safe_prefix_invariant
    · have h0 : pageCount st0 = 0 := by
        simp [pageCount, pageParts, hd]
      rw [h0]
      exact datadump_ops_safe env rid st0.status.meta_startTime queries
        args.limit
    · have h1 : doneOf st0 = 0 := by
        simp [doneOf, hp]
      rw [h1]
      exact Nat.zero_le _

/-- Witness for C8: a failing commit on the fixture state, an aborting
run over an empty warehouse, and the progress bound after two operations
of the fixture run. -/
theorem C8_witness :
    store_chunk false "cid" [] 5 1 "tick" cSt0 = .error cSt0 ∧
    (∃ t, cSt0.dumps = cSt0.dumps ++ t) ∧
    doneOf (((get_observation_datadump_ops cEnv "tick"
        cSt0.status.meta_startTime cPlan cArgs.limit).take 2).foldl
        applyOp cSt0)
      ≤ pageCount (((get_observation_datadump_ops cEnv "tick"
        cSt0.status.meta_startTime cPlan cArgs.limit).take 2).foldl
        applyOp cSt0) :=
  ⟨C8_rollback_and_progress.1 "cid" [] 5 1 "tick" cSt0,
   C8_rollback_and_progress.2.1 cEnv (fun _ => true) cArgs "tick" cCat
     (fun _ => true) [] cSt0
     (.unhandledCrash (bad_request "Table temperature not found")) cSt0 rfl,
   C8_rollback_and_progress.2.2 cEnv cArgs "tick" cCat (fun _ => true) cWh
     cSt0 cPlan rfl rfl rfl 2⟩

end Plenario
